import Mathlib

/-!
Verification of the fasttrade trading-engine core against its design
specification.

The development is a shallow embedding of the C++ sources:
`src/utils/decimal.cpp` (fixed-point `Decimal`), `src/core/limit_order.cpp`
(`LimitOrder`), and the order-book / trading-core translation units
(`OrderBook`, `TradingCore`).

Modelling conventions:
- `Decimal` stores its raw scaled representation as an unbounded `Int`.
  The C++ field is `int64_t`; signed overflow in C++ is undefined
  behaviour, so the embedding uses the idealized (overflow-free) integer
  semantics of the written arithmetic expressions.  Truncating division
  (`Int.tdiv`) mirrors C++ `operator/` on integers.
- Timestamps and mutexes are not modelled: claims here are about the
  sequential, functional behaviour.  Callback lists are modelled by a
  registration count / registration flags, and callback invocations by an
  explicit event list returned from each operation.
- `std::map` fields are modelled by association lists with
  insert-or-assign update, and `std::set`-based book sides by lists kept
  in comparator order (prices on one side are pairwise distinct, so the
  time tie-break in the C++ comparators is unreachable).
-/

namespace FastTrade

/-! ## Decimal (src/include .../decimal.hpp, src/utils/decimal.cpp) -/

/-- Embeds `Decimal::SCALE_FACTOR = 1000000000000000000LL` (18 decimal places). -/
def SCALE_FACTOR : Int := 1000000000000000000

/-- Embeds `fasttrade::utils::Decimal`: fixed-point value stored as its raw scaled
integer `value_` (the represented number is `value / 10^18`). -/
@[ext]
structure Decimal where
  value : Int
deriving DecidableEq, Repr

namespace Decimal

/-- The `explicit Decimal(int64_t value)` constructor:
`value_(value * SCALE_FACTOR)`. -/
def ofInt (v : Int) : Decimal := ⟨v * SCALE_FACTOR⟩

/-- Embeds `Decimal::zero()` (default constructor: `value_(0)`). -/
def zero : Decimal := ⟨0⟩

/-- Embeds `operator+`: `value_ + other.value_`. -/
def add (a b : Decimal) : Decimal := ⟨a.value + b.value⟩

/-- Embeds `operator-` (binary): `value_ - other.value_`. -/
def sub (a b : Decimal) : Decimal := ⟨a.value - b.value⟩

/-- Embeds `operator*`: `(value_ * other.value_) / SCALE_FACTOR`
(C++ integer division truncates toward zero). -/
def mul (a b : Decimal) : Decimal := ⟨(a.value * b.value).tdiv SCALE_FACTOR⟩

/-- Embeds `operator/`: `(value_ * SCALE_FACTOR) / other.value_`. -/
def div (a b : Decimal) : Decimal := ⟨(a.value * SCALE_FACTOR).tdiv b.value⟩

/-- Embeds `operator-()` (unary): `return Decimal(-value_);` — note that this
invokes the `int64_t` constructor, which multiplies by `SCALE_FACTOR`
again. -/
def neg (a : Decimal) : Decimal := ofInt (-a.value)

/-- Embeds `operator<` compares raw values. -/
instance : LT Decimal := ⟨fun a b => a.value < b.value⟩

/-- Embeds `operator<=` compares raw values. -/
instance : LE Decimal := ⟨fun a b => a.value ≤ b.value⟩

instance (a b : Decimal) : Decidable (a < b) :=
  inferInstanceAs (Decidable (a.value < b.value))

instance (a b : Decimal) : Decidable (a ≤ b) :=
  inferInstanceAs (Decidable (a.value ≤ b.value))

/-- Embeds `is_zero()`: `value_ == 0`. -/
def is_zero (a : Decimal) : Bool := a.value == 0

/-- Embeds `is_negative()`: `value_ < 0`. -/
def is_negative (a : Decimal) : Bool := decide (a.value < 0)

/-- Embeds `abs()`: `(value_ < 0) ? -value_ : value_`. -/
def abs (a : Decimal) : Decimal := ⟨if a.value < 0 then -a.value else a.value⟩

/-- Embeds `std::min(a, b)` under `Decimal::operator<`: `(b < a) ? b : a`. -/
def stdMin (a b : Decimal) : Decimal := if b.value < a.value then b else a

end Decimal

/-! ## Decimal strings (src/utils/decimal.cpp)

A well-formed decimal string is modelled by its sign character and its two
runs of digits (most-significant first), mirroring how the C++ constructor
splits the input at the optional sign and at the decimal point.  Rendering
is modelled the same way; `renderForm` turns the structure back into the
actual character string. -/

/-- The optional leading sign character of a decimal string. -/
inductive SignChar where
  | nosign
  | plus
  | minus
deriving DecidableEq, Repr

/-- A decimal string split into sign, integer digits and fractional
digits (most-significant digit first, values `0..9`). -/
@[ext]
structure DecForm where
  neg : Bool
  intDigits : List Nat
  fracDigits : List Nat
deriving DecidableEq, Repr

/-- Embeds `std::stoll` on a run of decimal digits (msd first). -/
def stoll (L : List Nat) : Nat :=
  L.foldl (fun a d => 10 * a + d) 0

/-- Embeds `std::to_string` of a nonnegative integer, as a digit list
(msd first); `0` renders as the single digit `0`. -/
def reprDigits (n : Nat) : List Nat :=
  if n = 0 then [0] else (Nat.digits 10 n).reverse

/-- Remove trailing zero digits (the `while ... pop_back()` loop of
`Decimal::to_string`). -/
def stripTrailingZeros (L : List Nat) : List Nat :=
  (L.reverse.dropWhile (fun d => d == 0)).reverse

namespace Decimal

/-- Embeds `Decimal::Decimal(const std::string&)` on a well-formed decimal
string: drop the sign, split at the decimal point, truncate the
fractional run to 18 digits and right-pad it with zeros to exactly 18,
then `value_ = int_value * SCALE_FACTOR + frac_value`, negated when the
sign was a minus. -/
def parse (sgn : SignChar) (intDs fracDs : List Nat) : Decimal :=
  let fracTrunc := fracDs.take 18
  let fracPadded := fracTrunc ++ List.replicate (18 - fracTrunc.length) 0
  let v : Int := (stoll intDs : Int) * SCALE_FACTOR + (stoll fracPadded : Int)
  ⟨if sgn = SignChar.minus then -v else v⟩

/-- Embeds `Decimal::to_string()`, as a `DecForm`: `"0"` for zero; otherwise
sign, `abs_value / SCALE_FACTOR` rendered as digits, and — when
`abs_value % SCALE_FACTOR` is nonzero — the fractional digits left-padded
with zeros to 18 and stripped of trailing zeros. -/
def to_form (d : Decimal) : DecForm :=
  if d.value = 0 then ⟨false, [0], []⟩
  else
    let a : Nat := d.value.natAbs
    let ip := a / 1000000000000000000
    let fp := a % 1000000000000000000
    ⟨d.value < 0, reprDigits ip,
     if 0 < fp then
       stripTrailingZeros
         (List.replicate (18 - (reprDigits fp).length) 0 ++ reprDigits fp)
     else []⟩

/-- Reading the rendering of a `Decimal` back through the constructor
(`from_string(d.to_string())`). -/
def parseForm (f : DecForm) : Decimal :=
  parse (if f.neg then SignChar.minus else SignChar.nosign)
    f.intDigits f.fracDigits

/-- A digit as its character. -/
def digitChar (d : Nat) : Char := Char.ofNat (48 + d)

/-- Render a `DecForm` as the character string the C++ code produces. -/
def renderForm (f : DecForm) : String :=
  (if f.neg then "-" else "")
    ++ String.mk (f.intDigits.map digitChar)
    ++ (if f.fracDigits.isEmpty then ""
        else "." ++ String.mk (f.fracDigits.map digitChar))

/-- Embeds `Decimal::to_string()` as an actual string. -/
def to_string (d : Decimal) : String := renderForm d.to_form

end Decimal

/-- Modelled from the claim wording for C9: the canonical form of a
decimal string — minus sign only for negative values, integer digits
without a redundant representation, fractional digits without trailing
zeros, no leading plus, and plain `0` for zero. -/
def canonicalForm (sgn : SignChar) (intDs fracDs : List Nat) : DecForm :=
  let ip := stoll intDs
  let fr := stripTrailingZeros fracDs
  if ip = 0 ∧ fr = [] then ⟨false, [0], []⟩
  else ⟨sgn = SignChar.minus, reprDigits ip, fr⟩

/-! ## Order book (include/fasttrade/core/order_book.hpp, order_book.cpp) -/

/-- Embeds `OrderBookEntry` (price level); the `timestamp` field is not modelled
(see header comment: with at most one level per price, the timestamp
tie-break of the comparators is unreachable). -/
structure OrderBookEntry where
  price : Decimal
  amount : Decimal
  update_id : Int
deriving DecidableEq, Repr

/-- Insert an entry into a side kept in comparator order: ascending price
for asks (`AskComparator`), descending price for bids (`BidComparator`). -/
def insertEntry (isBid : Bool) (e : OrderBookEntry) :
    List OrderBookEntry → List OrderBookEntry
  | [] => [e]
  | x :: xs =>
    if (if isBid then x.price.value < e.price.value
        else e.price.value < x.price.value) then
      e :: x :: xs
    else
      x :: insertEntry isBid e xs

/-- Embeds `OrderBookSide::update(price, amount, update_id)`: erase the (unique)
entry at `price` if present; if `amount` is nonzero, insert the new entry
at its comparator position. -/
def sideUpdate (isBid : Bool) (price amount : Decimal) (uid : Int)
    (s : List OrderBookEntry) : List OrderBookEntry :=
  let erased := s.eraseP (fun e => decide (e.price = price))
  if amount.is_zero then erased
  else insertEntry isBid ⟨price, amount, uid⟩ erased

/-- Embeds `OrderBook`: symbol, two sides, `last_update_id_`; the registered
callback list is modelled by its length `num_callbacks`. -/
structure OrderBook where
  symbol : String
  bids : List OrderBookEntry
  asks : List OrderBookEntry
  last_update_id : Int
  num_callbacks : Nat
deriving DecidableEq, Repr

namespace OrderBook

/-- A fresh book: `OrderBook(symbol)` with `last_update_id_(0)`. -/
def mk0 (symbol : String) : OrderBook := ⟨symbol, [], [], 0, 0⟩

/-- Embeds `notify_update()` invokes every registered callback once; the model
returns the number of callback invocations. -/
def notify_update (b : OrderBook) : Nat := b.num_callbacks

/-- Embeds `update_bid`: update the bid side, set `last_update_id_`, notify. -/
def update_bid (b : OrderBook) (price amount : Decimal) (uid : Int) :
    OrderBook × Nat :=
  ({ b with bids := sideUpdate true price amount uid b.bids,
            last_update_id := uid }, b.notify_update)

/-- Embeds `update_ask`: update the ask side, set `last_update_id_`, notify. -/
def update_ask (b : OrderBook) (price amount : Decimal) (uid : Int) :
    OrderBook × Nat :=
  ({ b with asks := sideUpdate false price amount uid b.asks,
            last_update_id := uid }, b.notify_update)

/-- Embeds `apply_updates(bids, asks, final_update_id)`: apply all bid updates,
then all ask updates, set `last_update_id_`, notify once. -/
def apply_updates (b : OrderBook)
    (bidUpdates askUpdates : List (Decimal × Decimal × Int))
    (finalId : Int) : OrderBook × Nat :=
  let bids2 := bidUpdates.foldl
    (fun s u => sideUpdate true u.1 u.2.1 u.2.2 s) b.bids
  let asks2 := askUpdates.foldl
    (fun s u => sideUpdate false u.1 u.2.1 u.2.2 s) b.asks
  ({ b with bids := bids2, asks := asks2, last_update_id := finalId },
   b.notify_update)

/-- Embeds `best_bid()`: price of the front entry, or `Decimal::zero()`. -/
def best_bid (b : OrderBook) : Decimal :=
  match b.bids with
  | [] => Decimal.zero
  | e :: _ => e.price

/-- Embeds `best_ask()`: price of the front entry, or `Decimal::zero()`. -/
def best_ask (b : OrderBook) : Decimal :=
  match b.asks with
  | [] => Decimal.zero
  | e :: _ => e.price

/-- The walk inside `get_impact_price`: consume
`std::min(level.amount, remaining)` at each level, accumulating
`total_cost`, stopping early once `remaining` is zero.  Returns
`(total_cost, remaining_quantity)` after the loop. -/
def impactWalk : List OrderBookEntry → Decimal → Decimal → Decimal × Decimal
  | [], remaining, acc => (acc, remaining)
  | e :: rest, remaining, acc =>
    if remaining.is_zero then (acc, remaining)
    else
      let consume := Decimal.stdMin e.amount remaining
      impactWalk rest (remaining.sub consume) (acc.add (consume.mul e.price))

/-- Embeds `get_impact_price(is_buy, quantity)`. -/
def get_impact_price (b : OrderBook) (is_buy : Bool) (quantity : Decimal) :
    Decimal :=
  if quantity.is_zero then Decimal.zero
  else
    let levels := if is_buy then b.asks else b.bids
    let r := impactWalk levels quantity Decimal.zero
    if Decimal.zero.value < r.2.value then Decimal.zero
    else r.1.div quantity

/-- Embeds `clear()`: clear both sides, reset `last_update_id_` to 0; it does not
call `notify_update`, so no registered callback is invoked. -/
def clear (b : OrderBook) : OrderBook × Nat :=
  ({ b with bids := [], asks := [], last_update_id := 0 }, 0)

/-- Embeds `is_valid()`: if both best prices are nonzero, require
`best_bid < best_ask`; otherwise valid. -/
def is_valid (b : OrderBook) : Bool :=
  if ¬(b.best_bid.is_zero) ∧ ¬(b.best_ask.is_zero) then
    decide (b.best_bid.value < b.best_ask.value)
  else
    true

end OrderBook

/-! ## Orders (include/fasttrade/core/limit_order.hpp, limit_order.cpp) -/

inductive OrderSide where
  | BUY
  | SELL
deriving DecidableEq, Repr

inductive OrderType where
  | LIMIT
  | MARKET
  | STOP_LIMIT
  | STOP_MARKET
deriving DecidableEq, Repr

inductive OrderStatus where
  | PENDING
  | OPEN
  | PARTIAL
  | FILLED
  | CANCELLED
  | REJECTED
  | EXPIRED
deriving DecidableEq, Repr

/-- Embeds `ExecutionDetail` (timestamp not modelled). -/
structure ExecutionDetail where
  execution_id : String
  quantity : Decimal
  price : Decimal
  fee_amount : Decimal
  fee_currency : String
deriving DecidableEq, Repr

/-- Embeds `LimitOrder` stored fields (timestamps, position tag, exchange id,
rejection reason and expiry are not needed by the claims and are not
modelled). -/
structure LimitOrder where
  client_order_id : String
  trading_pair : String
  side : OrderSide
  type : OrderType
  price : Decimal
  quantity : Decimal
  filled_quantity : Decimal
  status : OrderStatus
  executions : List ExecutionDetail
deriving DecidableEq, Repr

namespace LimitOrder

/-- Embeds `is_buy()`. -/
def is_buy (o : LimitOrder) : Bool := decide (o.side = OrderSide.BUY)

/-- Embeds `set_status(status)`: stores the given status unconditionally. -/
def set_status (o : LimitOrder) (st : OrderStatus) : LimitOrder :=
  { o with status := st }

/-- Embeds `set_filled_quantity(filled)`: store `filled`; then status becomes
`FILLED` if `filled >= quantity`, else `PARTIAL` if `filled > 0`, else it
is left unchanged. -/
def set_filled_quantity (o : LimitOrder) (f : Decimal) : LimitOrder :=
  { o with filled_quantity := f,
           status :=
             if o.quantity.value ≤ f.value then OrderStatus.FILLED
             else if 0 < f.value then OrderStatus.PARTIAL
             else o.status }

/-- Embeds `apply_fill(fill_quantity, fill_price)`: add to `filled_quantity_`;
status becomes `FILLED` if `filled >= quantity`, else `PARTIAL` —
unconditionally, whatever the current status. -/
def apply_fill (o : LimitOrder) (fill_quantity _fill_price : Decimal) :
    LimitOrder :=
  let f := o.filled_quantity.add fill_quantity
  { o with filled_quantity := f,
           status :=
             if o.quantity.value ≤ f.value then OrderStatus.FILLED
             else OrderStatus.PARTIAL }

/-- Embeds `add_execution(id, quantity, price, fee, fee_ccy)`: append the
execution, add to `filled_quantity_`, and recompute the status exactly as
`set_filled_quantity` does. -/
def add_execution (o : LimitOrder) (execution_id : String)
    (quantity price fee_amount : Decimal) (fee_currency : String) :
    LimitOrder :=
  let f := o.filled_quantity.add quantity
  { o with executions :=
             o.executions ++ [⟨execution_id, quantity, price, fee_amount,
                               fee_currency⟩],
           filled_quantity := f,
           status :=
             if o.quantity.value ≤ f.value then OrderStatus.FILLED
             else if 0 < f.value then OrderStatus.PARTIAL
             else o.status }

/-- Embeds `cancel()`: sets `CANCELLED` unconditionally. -/
def cancel (o : LimitOrder) : LimitOrder :=
  { o with status := OrderStatus.CANCELLED }

end LimitOrder

/-! ## Trading core (trading_core.hpp / trading_core.cpp) -/

/-- Embeds `Position` (the `last_update` timestamp is not modelled). -/
structure Position where
  symbol : String
  quantity : Decimal
  average_price : Decimal
  unrealized_pnl : Decimal
  realized_pnl : Decimal
deriving DecidableEq, Repr

/-- The default-constructed `Position()` used by `std::map::operator[]`
and by `get_position` for an unknown symbol. -/
def Position.empty : Position :=
  ⟨"", Decimal.zero, Decimal.zero, Decimal.zero, Decimal.zero⟩

/-- Embeds `Balance` (the `last_update` timestamp is not modelled). -/
structure Balance where
  currency : String
  total : Decimal
  available : Decimal
  locked : Decimal
deriving DecidableEq, Repr

def Balance.empty : Balance :=
  ⟨"", Decimal.zero, Decimal.zero, Decimal.zero⟩

/-- Embeds `Trade` (timestamp not modelled). -/
structure Trade where
  trade_id : String
  client_order_id : String
  exchange_order_id : String
  symbol : String
  side : OrderSide
  price : Decimal
  quantity : Decimal
  fee : Decimal
  fee_currency : String
deriving DecidableEq, Repr

/-- Embeds `RiskLimits`. -/
structure RiskLimits where
  max_position_size : Decimal
  max_order_size : Decimal
  max_daily_loss : Decimal
  max_drawdown : Decimal
  max_orders_per_second : Int
  enable_position_limits : Bool
  enable_order_limits : Bool
  enable_loss_limits : Bool
deriving DecidableEq, Repr

/-- Embeds `TradingCallbacks`: whether each `std::function` slot is set
(the C++ code tests each slot for emptiness before enqueueing). -/
structure TradingCallbacks where
  on_order_filled : Bool
  on_order_cancelled : Bool
  on_order_rejected : Bool
  on_trade_executed : Bool
  on_error : Bool
  on_position_update : Bool
  on_balance_update : Bool
deriving DecidableEq, Repr

/-- Events pushed onto the trading core's event queue (each one is the
deferred invocation of the corresponding callback). -/
inductive TradingEvent where
  | orderRejected (o : LimitOrder)
  | orderCancelled (o : LimitOrder)
  | positionUpdate (p : Position)
  | balanceUpdate (b : Balance)
deriving DecidableEq, Repr

/-- Association-list lookup, modelling `std::map::find`. -/
def mapFind {α : Type} (k : String) (m : List (String × α)) : Option α :=
  match m with
  | [] => none
  | kv :: rest => if kv.1 = k then some kv.2 else mapFind k rest

/-- Association-list insert-or-assign, modelling `map[k] = v`. -/
def mapSet {α : Type} (k : String) (v : α) (m : List (String × α)) :
    List (String × α) :=
  match m with
  | [] => [(k, v)]
  | kv :: rest => if kv.1 = k then (k, v) :: rest else kv :: mapSet k v rest

/-- Embeds `TradingCore` state (clock, threads and the market-data manager are
not modelled; callback invocations are returned as event lists). -/
structure TradingCore where
  active_orders : List (String × LimitOrder)
  positions : List (String × Position)
  balances : List (String × Balance)
  trade_history : List Trade
  risk_limits : RiskLimits
  callbacks : TradingCallbacks
  daily_pnl : Decimal
  total_pnl : Decimal
  order_books : List (String × OrderBook)
deriving DecidableEq, Repr

namespace TradingCore

/-- Embeds `validate_order(order)`: id non-empty, pair non-empty, quantity
neither zero nor negative, and for LIMIT orders price neither zero nor
negative. -/
def validate_order (o : LimitOrder) : Bool :=
  if o.client_order_id = "" then false
  else if o.trading_pair = "" then false
  else if o.quantity.is_zero || o.quantity.is_negative then false
  else if decide (o.type = OrderType.LIMIT)
          && (o.price.is_zero || o.price.is_negative) then false
  else true

/-- Embeds `check_risk_limits(order)`: order-size limit, hypothetical position
limit, then the daily-loss limit, which compares `daily_pnl_` with
`-risk_limits_.max_daily_loss` using the unary `Decimal::operator-`. -/
def check_risk_limits (s : TradingCore) (o : LimitOrder) : Bool :=
  if s.risk_limits.enable_order_limits
      && decide (s.risk_limits.max_order_size.value < o.quantity.value) then
    false
  else if s.risk_limits.enable_position_limits
      && (let current : Decimal :=
            match mapFind o.trading_pair s.positions with
            | some p => p.quantity
            | none => Decimal.zero
          let newPos : Decimal :=
            if o.is_buy then current.add o.quantity
            else current.sub o.quantity
          decide (s.risk_limits.max_position_size.value
                    < newPos.abs.value)) then
    false
  else if s.risk_limits.enable_loss_limits
      && decide (s.daily_pnl.value
                   < (Decimal.neg s.risk_limits.max_daily_loss).value) then
    false
  else
    true

/-- Embeds `submit_order(order)`: validate, risk-check (enqueueing
`on_order_rejected` when that callback is set), then store a copy with
status `OPEN` under `client_order_id` via `map::operator[]`. -/
def submit_order (s : TradingCore) (o : LimitOrder) :
    Bool × TradingCore × List TradingEvent :=
  if ¬(validate_order o) then (false, s, [])
  else if ¬(check_risk_limits s o) then
    (false, s,
     if s.callbacks.on_order_rejected then [TradingEvent.orderRejected o]
     else [])
  else
    let order_copy := o.set_status OrderStatus.OPEN
    (true,
     { s with active_orders :=
                mapSet o.client_order_id order_copy s.active_orders },
     [])

/-- Embeds `get_position(symbol)`: the stored position, or the
default-constructed `Position()` when the symbol is unknown. -/
def get_position (s : TradingCore) (symbol : String) : Position :=
  match mapFind symbol s.positions with
  | some p => p
  | none => Position.empty

/-- Embeds `update_position(trade)`: `positions_[trade.symbol]`
(`operator[]` default-constructs when absent — since the slot is
rewritten below, reading through `get_position` is equivalent), BUY
re-averages the cost basis, SELL realizes
`quantity * (price - average_price)` into the position's `realized_pnl`
and into `total_pnl_` and `daily_pnl_`. -/
def update_position (s : TradingCore) (t : Trade) :
    TradingCore × List TradingEvent :=
  let pos0 := s.get_position t.symbol
  let pos1 := { pos0 with symbol := t.symbol }
  if t.side = OrderSide.BUY then
    let total_cost :=
      (pos1.quantity.mul pos1.average_price).add (t.quantity.mul t.price)
    let q2 := pos1.quantity.add t.quantity
    let pos2 :=
      { pos1 with quantity := q2,
                  average_price :=
                    if q2.is_zero then pos1.average_price
                    else total_cost.div q2 }
    ({ s with positions := mapSet t.symbol pos2 s.positions },
     if s.callbacks.on_position_update then [TradingEvent.positionUpdate pos2]
     else [])
  else
    let realized := t.quantity.mul (t.price.sub pos1.average_price)
    let pos2 :=
      { pos1 with realized_pnl := pos1.realized_pnl.add realized,
                  quantity := pos1.quantity.sub t.quantity }
    ({ s with positions := mapSet t.symbol pos2 s.positions,
              total_pnl := s.total_pnl.add realized,
              daily_pnl := s.daily_pnl.add realized },
     if s.callbacks.on_position_update then [TradingEvent.positionUpdate pos2]
     else [])

/-- Embeds `reset()`: clears orders, positions, balances, history and both P&L
totals, and clears every order book via
`order_book_manager_->clear_all()`. -/
def reset (s : TradingCore) : TradingCore :=
  { s with active_orders := [],
           positions := [],
           balances := [],
           trade_history := [],
           daily_pnl := Decimal.zero,
           total_pnl := Decimal.zero,
           order_books := [] }

/-- One entry of the `"positions"` array written by `export_state`. -/
def exportPosition (p : Position) : String :=
  "    \x7b\n      \"symbol\": \"" ++ p.symbol
    ++ "\",\n      \"quantity\": " ++ p.quantity.to_string
    ++ ",\n      \"average_price\": " ++ p.average_price.to_string
    ++ ",\n      \"realized_pnl\": " ++ p.realized_pnl.to_string
    ++ "\n    \x7d"

/-- One entry of the `"balances"` array written by `export_state`. -/
def exportBalance (b : Balance) : String :=
  "    \x7b\n      \"currency\": \"" ++ b.currency
    ++ "\",\n      \"total\": " ++ b.total.to_string
    ++ ",\n      \"available\": " ++ b.available.to_string
    ++ "\n    \x7d"

/-- Embeds `export_state()`: the JSON snapshot of positions, balances and the
two P&L totals. -/
def export_state (s : TradingCore) : String :=
  "\x7b\n  \"positions\": [\n"
    ++ String.intercalate ",\n" (s.positions.map (fun kv => exportPosition kv.2))
    ++ "\n  ],\n  \"balances\": [\n"
    ++ String.intercalate ",\n" (s.balances.map (fun kv => exportBalance kv.2))
    ++ "\n  ],\n  \"total_pnl\": " ++ s.total_pnl.to_string
    ++ ",\n  \"daily_pnl\": " ++ s.daily_pnl.to_string
    ++ "\n\x7d"

/-- Embeds `import_state(json)`: the C++ body is a stub — "JSON parsing would be
implemented here ... For now, return false to indicate not implemented".
It inspects nothing and changes nothing. -/
def import_state (_json : String) (s : TradingCore) : Bool × TradingCore :=
  (false, s)

end TradingCore

/-! ## Specification-side functions for the impact-price claim -/

/-- Total resting amount on a list of levels. -/
def sumAmounts : List OrderBookEntry → Decimal
  | [] => Decimal.zero
  | e :: rest => e.amount.add (sumAmounts rest)

/-- The volume-weighted cost of walking the levels in comparator order,
consuming `min(level.amount, remaining)` at each level's price (the
claim's description of the sweep, without the early exit and without the
running accumulator). -/
def vwapCost : List OrderBookEntry → Decimal → Decimal
  | [], _ => Decimal.zero
  | e :: rest, remaining =>
    let consume := Decimal.stdMin e.amount remaining
    (consume.mul e.price).add (vwapCost rest (remaining.sub consume))

/-! ## Concrete fixtures used by the scenario claims -/

/-- Risk limits with every check disabled and all bounds zero. -/
def zeroRisk : RiskLimits :=
  ⟨Decimal.zero, Decimal.zero, Decimal.zero, Decimal.zero, 0,
   false, false, false⟩

/-- No callback slot set. -/
def noCallbacks : TradingCallbacks :=
  ⟨false, false, false, false, false, false, false⟩

/-- A freshly reset trading core. -/
def emptyCore : TradingCore :=
  ⟨[], [], [], [], zeroRisk, noCallbacks, Decimal.zero, Decimal.zero, []⟩

/-- A valid BTC-USDT limit buy order with the given id and quantity. -/
def sampleOrder (id : String) (qty : Decimal) : LimitOrder :=
  ⟨id, "BTC-USDT", OrderSide.BUY, OrderType.LIMIT, Decimal.ofInt 50000,
   qty, Decimal.zero, OrderStatus.PENDING, []⟩

/-- The book of spec scenario 2: asks `(50000, 1.2)` and `(50050, 0.8)`. -/
def exBook : OrderBook :=
  (((OrderBook.mk0 "BTC-USDT").update_ask (Decimal.ofInt 50000)
      ⟨1200000000000000000⟩ 3).1.update_ask (Decimal.ofInt 50050)
      ⟨800000000000000000⟩ 4).1

/-- A book whose ask side holds a level at price zero: both sides are
non-empty and `best_bid = 5 ≥ 0 = best_ask`. -/
def c8Book : OrderBook :=
  (((OrderBook.mk0 "XYZ").update_bid (Decimal.ofInt 5) (Decimal.ofInt 1)
      1).1.update_ask Decimal.zero (Decimal.ofInt 1) 2).1

/-- A book with two registered callbacks and `last_update_id = 5`. -/
def c10Book : OrderBook :=
  ({ OrderBook.mk0 "BTC-USDT" with num_callbacks := 2 }.update_bid
    (Decimal.ofInt 49900) (Decimal.ofInt 1) 5).1

/-- Scenario 4: `max_order_size = 1.0`, order limits enabled,
`on_order_rejected` registered. -/
def c4State : TradingCore :=
  { emptyCore with
    risk_limits := { zeroRisk with max_order_size := Decimal.ofInt 1,
                                   enable_order_limits := true },
    callbacks := { noCallbacks with on_order_rejected := true } }

/-- Scenario 4: a valid limit order of quantity 1.5. -/
def c4Order : LimitOrder := sampleOrder "ORD-1" ⟨1500000000000000000⟩

/-- Loss limits enabled with `max_daily_loss` = 2·10⁻¹⁸ (raw value 2) and
`daily_pnl` = −1. -/
def c5State : TradingCore :=
  { emptyCore with
    risk_limits := { zeroRisk with max_daily_loss := ⟨2⟩,
                                   enable_loss_limits := true },
    daily_pnl := ⟨-1000000000000000000⟩ }

def c5Order : LimitOrder := sampleOrder "ORD-1" (Decimal.ofInt 1)

/-- The order already stored under id `"DUP"`. -/
def c3Order1 : LimitOrder :=
  (sampleOrder "DUP" (Decimal.ofInt 1)).set_status OrderStatus.OPEN

/-- A second, different valid order reusing the id `"DUP"`. -/
def c3Order2 : LimitOrder :=
  { sampleOrder "DUP" (Decimal.ofInt 2) with price := Decimal.ofInt 49000 }

/-- A core whose active-orders map already contains id `"DUP"`. -/
def c3State : TradingCore :=
  { emptyCore with active_orders := [("DUP", c3Order1)] }

/-- A core with a position, a balance, nonzero P&L totals, an active
order and an order book. -/
def c2State : TradingCore :=
  { emptyCore with
    active_orders := [("A", c3Order1)],
    positions := [("BTC-USDT",
      ⟨"BTC-USDT", Decimal.ofInt 2, Decimal.ofInt 50000, Decimal.zero,
       Decimal.ofInt 40⟩)],
    balances := [("USDT",
      ⟨"USDT", Decimal.ofInt 1000, Decimal.ofInt 900, Decimal.ofInt 100⟩)],
    total_pnl := Decimal.ofInt 40,
    daily_pnl := Decimal.ofInt 40,
    order_books := [("BTC-USDT", exBook)] }

/-- A cancelled order with quantity 2 and no fills. -/
def c7Order : LimitOrder :=
  { sampleOrder "C-1" (Decimal.ofInt 2) with
    status := OrderStatus.CANCELLED }

/-- A fully-filled order in the FILLED state. -/
def c7FilledOrder : LimitOrder :=
  { sampleOrder "F-1" (Decimal.ofInt 1) with
    status := OrderStatus.FILLED,
    filled_quantity := Decimal.ofInt 1 }

/-- A BUY fill of quantity 1 at price 50000. -/
def c1BuyTrade : Trade :=
  ⟨"T-1", "ORD-1", "EX-1", "BTC-USDT", OrderSide.BUY,
   Decimal.ofInt 50000, Decimal.ofInt 1, Decimal.zero, "USDT"⟩

/-! ## Supporting lemmas: maps and the impact-price walk -/

theorem mapFind_mapSet {α : Type} (k : String) (v : α)
    (m : List (String × α)) : mapFind k (mapSet k v m) = some v := by
  induction m with
  | nil => simp [mapSet, mapFind]
  | cons kv rest ih =>
    by_cases h : kv.1 = k
    · simp [mapSet, h, mapFind]
    · simp [mapSet, h, mapFind, ih]

theorem sumAmounts_nonneg (L : List OrderBookEntry)
    (h : ∀ e ∈ L, 0 ≤ e.amount.value) : 0 ≤ (sumAmounts L).value := by
  induction L with
  | nil => simp [sumAmounts, Decimal.zero]
  | cons e rest ih =>
    have he := h e (by simp)
    have hr := ih (fun x hx => h x (by simp [hx]))
    simp only [sumAmounts, Decimal.add]
    omega

theorem vwapCost_of_zero (L : List OrderBookEntry) (r : Decimal)
    (hr : r.value = 0) (h : ∀ e ∈ L, 0 ≤ e.amount.value) :
    vwapCost L r = Decimal.zero := by
  induction L generalizing r with
  | nil => simp [vwapCost]
  | cons e rest ih =>
    have he := h e (by simp)
    simp only [vwapCost]
    have hc : (Decimal.stdMin e.amount r).value = 0 := by
      unfold Decimal.stdMin
      split_ifs with hlt
      · exact hr
      · omega
    have hcost : ((Decimal.stdMin e.amount r).mul e.price).value = 0 := by
      simp only [Decimal.mul, hc, Int.zero_mul, Int.zero_tdiv]
    have hrec := ih (r.sub (Decimal.stdMin e.amount r))
      (by simp only [Decimal.sub]; omega)
      (fun x hx => h x (by simp [hx]))
    rw [hrec]
    apply Decimal.ext
    simp only [Decimal.add, Decimal.zero, hcost]
    omega

theorem impactWalk_cost (L : List OrderBookEntry) :
    ∀ (r acc : Decimal), 0 ≤ r.value → (∀ e ∈ L, 0 ≤ e.amount.value) →
      (OrderBook.impactWalk L r acc).1 = acc.add (vwapCost L r) := by
  induction L with
  | nil =>
    intro r acc _ _
    apply Decimal.ext
    simp [OrderBook.impactWalk, vwapCost, Decimal.add, Decimal.zero]
  | cons e rest ih =>
    intro r acc hr h
    have he := h e (by simp)
    by_cases hz : r.is_zero
    · have hr0 : r.value = 0 := by
        simpa [Decimal.is_zero] using hz
      rw [OrderBook.impactWalk, if_pos hz,
          vwapCost_of_zero (e :: rest) r hr0 h]
      apply Decimal.ext
      simp [Decimal.add, Decimal.zero]
    · have hsub : 0 ≤ (r.sub (Decimal.stdMin e.amount r)).value := by
        unfold Decimal.stdMin
        simp only [Decimal.sub]
        split_ifs with hlt <;> omega
      rw [OrderBook.impactWalk, if_neg hz,
          ih _ _ hsub (fun x hx => h x (by simp [hx]))]
      show (acc.add ((Decimal.stdMin e.amount r).mul e.price)).add
          (vwapCost rest (r.sub (Decimal.stdMin e.amount r)))
        = acc.add (vwapCost (e :: rest) r)
      apply Decimal.ext
      simp only [vwapCost, Decimal.add]
      ring

theorem impactWalk_remaining (L : List OrderBookEntry) :
    ∀ (r acc : Decimal), 0 ≤ r.value → (∀ e ∈ L, 0 ≤ e.amount.value) →
      ((OrderBook.impactWalk L r acc).2).value
        = max 0 (r.value - (sumAmounts L).value) := by
  induction L with
  | nil =>
    intro r acc hr _
    simp only [OrderBook.impactWalk, sumAmounts, Decimal.zero]
    omega
  | cons e rest ih =>
    intro r acc hr h
    have he := h e (by simp)
    have hsum := sumAmounts_nonneg rest (fun x hx => h x (by simp [hx]))
    by_cases hz : r.is_zero
    · have hr0 : r.value = 0 := by
        simpa [Decimal.is_zero] using hz
      rw [OrderBook.impactWalk, if_pos hz]
      simp only [sumAmounts, Decimal.add, hr0]
      omega
    · have hrpos : 0 < r.value := by
        have : r.value ≠ 0 := by
          simpa [Decimal.is_zero] using hz
        omega
      have hsub : 0 ≤ (r.sub (Decimal.stdMin e.amount r)).value := by
        unfold Decimal.stdMin
        simp only [Decimal.sub]
        split_ifs with hlt <;> omega
      rw [OrderBook.impactWalk, if_neg hz,
          ih _ _ hsub (fun x hx => h x (by simp [hx]))]
      unfold Decimal.stdMin
      simp only [Decimal.sub, sumAmounts, Decimal.add]
      split_ifs with hlt <;> omega

/-! ## Supporting lemmas about digit runs -/

theorem stoll_nil : stoll [] = 0 := rfl

theorem foldl_digits (L : List Nat) :
    ∀ a : Nat, L.foldl (fun a d => 10 * a + d) a = a * 10 ^ L.length + stoll L := by
  induction L with
  | nil => intro a; simp [stoll]
  | cons d t ih =>
    intro a
    have hd : stoll (d :: t) = d * 10 ^ t.length + stoll t := by
      show List.foldl (fun a d => 10 * a + d) (10 * 0 + d) t = _
      rw [ih (10 * 0 + d)]
      ring_nf
    show List.foldl (fun a d => 10 * a + d) (10 * a + d) t = _
    rw [ih (10 * a + d), hd]
    simp [List.length_cons]
    ring

theorem stoll_cons (d : Nat) (t : List Nat) :
    stoll (d :: t) = d * 10 ^ t.length + stoll t := by
  show List.foldl (fun a d => 10 * a + d) (10 * 0 + d) t = _
  rw [foldl_digits t (10 * 0 + d)]
  ring_nf

theorem stoll_append (L M : List Nat) :
    stoll (L ++ M) = stoll L * 10 ^ M.length + stoll M := by
  show (L ++ M).foldl (fun a d => 10 * a + d) 0 = _
  rw [List.foldl_append, foldl_digits M (L.foldl (fun a d => 10 * a + d) 0)]
  rfl

theorem stoll_replicate_zero (k : Nat) : stoll (List.replicate k 0) = 0 := by
  induction k with
  | zero => rfl
  | succ n ih =>
    rw [List.replicate_succ, stoll_cons, ih]
    simp

theorem stoll_append_replicate_zero (L : List Nat) (k : Nat) :
    stoll (L ++ List.replicate k 0) = stoll L * 10 ^ k := by
  rw [stoll_append, stoll_replicate_zero, List.length_replicate]
  simp

theorem stoll_replicate_zero_append (L : List Nat) (k : Nat) :
    stoll (List.replicate k 0 ++ L) = stoll L := by
  rw [stoll_append, stoll_replicate_zero]
  simp

theorem stoll_lt (L : List Nat) (h : ∀ d ∈ L, d < 10) :
    stoll L < 10 ^ L.length := by
  induction L with
  | nil => simp [stoll]
  | cons d t ih =>
    have hd : d < 10 := h d (by simp)
    have ht := ih (fun x hx => h x (by simp [hx]))
    rw [stoll_cons]
    calc d * 10 ^ t.length + stoll t
        < d * 10 ^ t.length + 10 ^ t.length := by omega
      _ = (d + 1) * 10 ^ t.length := by ring
      _ ≤ 10 * 10 ^ t.length := by
          exact Nat.mul_le_mul_right _ (by omega)
      _ = 10 ^ (d :: t).length := by
          rw [List.length_cons]; ring

theorem stoll_eq_zero_iff (L : List Nat) :
    stoll L = 0 ↔ ∀ d ∈ L, d = 0 := by
  induction L with
  | nil => simp [stoll]
  | cons d t ih =>
    rw [stoll_cons]
    constructor
    · intro h
      have hpow : 0 < 10 ^ t.length := Nat.pos_pow_of_pos _ (by omega)
      have hd : d = 0 := by
        rcases Nat.eq_zero_of_add_eq_zero_right h with h2
        rcases Nat.mul_eq_zero.mp h2 with h3 | h3
        · exact h3
        · omega
      have ht : stoll t = 0 := by omega
      intro x hx
      rcases List.mem_cons.mp hx with rfl | hx2
      · exact hd
      · exact ih.mp ht x hx2
    · intro h
      have hd : d = 0 := h d (by simp)
      have ht : stoll t = 0 := ih.mpr (fun x hx => h x (by simp [hx]))
      simp [hd, ht]

theorem stoll_reverse (L : List Nat) :
    stoll L.reverse = Nat.ofDigits 10 L := by
  induction L with
  | nil => rfl
  | cons d t ih =>
    rw [List.reverse_cons, stoll_append, ih, Nat.ofDigits_cons]
    simp [stoll_cons, stoll_nil]
    ring

theorem stoll_eq_ofDigits_reverse (L : List Nat) :
    stoll L = Nat.ofDigits 10 L.reverse := by
  rw [← stoll_reverse, List.reverse_reverse]

theorem stoll_reprDigits (n : Nat) : stoll (reprDigits n) = n := by
  by_cases h : n = 0
  · subst h; rfl
  · rw [reprDigits, if_neg h, stoll_reverse, Nat.ofDigits_digits]

theorem reprDigits_ne_nil (n : Nat) : reprDigits n ≠ [] := by
  by_cases h : n = 0
  · subst h; simp [reprDigits]
  · rw [reprDigits, if_neg h]
    simp [Nat.digits_ne_nil_iff_ne_zero.mpr h]

theorem reprDigits_valid (n : Nat) : ∀ d ∈ reprDigits n, d < 10 := by
  by_cases h : n = 0
  · subst h; simp [reprDigits]
  · rw [reprDigits, if_neg h]
    intro d hd
    exact Nat.digits_lt_base (by omega) (List.mem_reverse.mp hd)

theorem reprDigits_length_le (n k : Nat) (hn : n < 10 ^ k) (hk : 1 ≤ k) :
    (reprDigits n).length ≤ k := by
  by_cases h : n = 0
  · subst h; simpa [reprDigits] using hk
  · rw [reprDigits, if_neg h, List.length_reverse]
    by_contra hlen
    push_neg at hlen
    have h1 : 10 ^ (Nat.digits 10 n).length ≤ 10 * n :=
      Nat.base_pow_length_digits_le 10 n (by omega) h
    have h2 : 10 ^ (k + 1) ≤ 10 ^ (Nat.digits 10 n).length :=
      Nat.pow_le_pow_right (by omega) (by omega)
    have h3 : 10 ^ (k + 1) = 10 * 10 ^ k := by ring
    omega

theorem reprDigits_head_ne_zero (L : List Nat) (d : Nat) (hd : d ≠ 0)
    (hvalid : ∀ x ∈ d :: L, x < 10) :
    reprDigits (stoll (d :: L)) = d :: L := by
  have hne : stoll (d :: L) ≠ 0 := by
    rw [stoll_cons]
    have : 0 < 10 ^ L.length := Nat.pos_pow_of_pos _ (by omega)
    intro hc
    have := Nat.eq_zero_of_add_eq_zero_right hc
    rcases Nat.mul_eq_zero.mp this with h3 | h3
    · exact hd h3
    · omega
  rw [reprDigits, if_neg hne, stoll_eq_ofDigits_reverse]
  rw [Nat.digits_ofDigits 10 (by omega) ((d :: L).reverse)
        (fun x hx => hvalid x (List.mem_reverse.mp hx))
        (fun h => by
          rw [List.getLast_reverse]
          simpa using hd)]
  simp

/-! Lemmas about `stripTrailingZeros`. -/

theorem dropWhile_replicate_zero_append (p : Nat → Bool) (hp : p 0 = true)
    (k : Nat) (M : List Nat) :
    (List.replicate k 0 ++ M).dropWhile p = M.dropWhile p := by
  induction k with
  | zero => simp
  | succ n ih =>
    rw [List.replicate_succ, List.cons_append, List.dropWhile_cons_of_pos]
    · exact ih
    · exact hp

theorem strip_append_replicate_zero (L : List Nat) (k : Nat) :
    stripTrailingZeros (L ++ List.replicate k 0) = stripTrailingZeros L := by
  unfold stripTrailingZeros
  rw [List.reverse_append, List.reverse_replicate,
      dropWhile_replicate_zero_append _ (by simp) k L.reverse]

theorem strip_length_le (L : List Nat) :
    (stripTrailingZeros L).length ≤ L.length := by
  unfold stripTrailingZeros
  calc (L.reverse.dropWhile (fun d => d == 0)).reverse.length
      = (L.reverse.dropWhile (fun d => d == 0)).length := List.length_reverse _
    _ ≤ L.reverse.length := (List.dropWhile_sublist _).length_le
    _ = L.length := List.length_reverse _

theorem strip_restore (L : List Nat) :
    stripTrailingZeros L
      ++ List.replicate (L.length - (stripTrailingZeros L).length) 0 = L := by
  have hsplit := List.takeWhile_append_dropWhile (p := fun d => d == 0)
    (l := L.reverse)
  have htake : L.reverse.takeWhile (fun d => d == 0)
      = List.replicate (L.reverse.takeWhile (fun d => d == 0)).length 0 := by
    apply List.eq_replicate_of_mem
    intro x hx
    have := List.mem_takeWhile_imp hx
    simpa using this
  have hlen : L.length = (L.reverse.takeWhile (fun d => d == 0)).length
      + (L.reverse.dropWhile (fun d => d == 0)).length := by
    have := congrArg List.length hsplit
    rw [List.length_append, List.length_reverse] at this
    omega
  unfold stripTrailingZeros
  conv_rhs => rw [← List.reverse_reverse L, ← hsplit]
  rw [List.reverse_append]
  congr 1
  rw [htake, List.reverse_replicate]
  congr 1
  simp only [List.length_reverse]
  omega

theorem strip_eq_nil_iff (L : List Nat) :
    stripTrailingZeros L = [] ↔ ∀ d ∈ L, d = 0 := by
  unfold stripTrailingZeros
  rw [List.reverse_eq_nil_iff, List.dropWhile_eq_nil_iff]
  constructor
  · intro h d hd
    simpa using h d (List.mem_reverse.mpr hd)
  · intro h d hd
    simpa using h d (List.mem_reverse.mp hd)

theorem leftpad_reprDigits_stoll (L : List Nat) (hvalid : ∀ d ∈ L, d < 10)
    (hne : stoll L ≠ 0) :
    List.replicate (L.length - (reprDigits (stoll L)).length) 0
      ++ reprDigits (stoll L) = L := by
  induction L with
  | nil => simp [stoll] at hne
  | cons d t ih =>
    by_cases hd : d = 0
    · subst hd
      have ht : stoll (0 :: t) = stoll t := by
        rw [stoll_cons]; simp
      have htne : stoll t ≠ 0 := by rw [← ht]; exact hne
      have htvalid : ∀ x ∈ t, x < 10 := fun x hx => hvalid x (by simp [hx])
      have hlen : (reprDigits (stoll t)).length ≤ t.length := by
        rcases t with _ | ⟨x, xs⟩
        · simp [stoll] at htne
        · exact reprDigits_length_le _ _ (stoll_lt _ htvalid) (by simp)
      rw [ht]
      have harith : (0 :: t).length - (reprDigits (stoll t)).length
          = (t.length - (reprDigits (stoll t)).length) + 1 := by
        simp [List.length_cons]
        omega
      rw [harith, List.replicate_succ, List.cons_append, ih htvalid htne]
    · rw [reprDigits_head_ne_zero t d hd hvalid]
      simp

/-- The value produced by `parse` on a form whose fractional run has at
most 18 digits, with the sign factored out. -/
theorem parseForm_value (f : DecForm) (h : f.fracDigits.length ≤ 18) :
    (Decimal.parseForm f).value =
      (if f.neg then (-1 : Int) else 1) *
        ((stoll f.intDigits : Int) * SCALE_FACTOR
          + (stoll (f.fracDigits
              ++ List.replicate (18 - f.fracDigits.length) 0) : Int)) := by
  cases f with
  | mk neg iDs fDs =>
    unfold Decimal.parseForm Decimal.parse
    simp only at h ⊢
    rw [List.take_of_length_le h]
    cases neg <;> simp

/-- Parsing the rendering of any `Decimal` recovers it bit-exactly. -/
theorem parseForm_to_form (d : Decimal) : Decimal.parseForm d.to_form = d := by
  by_cases h0 : d.value = 0
  · have hform : d.to_form = ⟨false, [0], []⟩ := by
      rw [Decimal.to_form, if_pos h0]
    have hzero : Decimal.parseForm (⟨false, [0], []⟩ : DecForm) = ⟨0⟩ := by
      decide
    rw [hform, hzero]
    cases d
    simp_all
  · have hfp_lt : d.value.natAbs % 1000000000000000000 < 10 ^ 18 := by
      have : (1000000000000000000 : Nat) = 10 ^ 18 := by norm_num
      rw [this]
      exact Nat.mod_lt _ (by norm_num)
    rw [Decimal.to_form, if_neg h0]
    by_cases hfppos : 0 < d.value.natAbs % 1000000000000000000
    · -- rendered fractional digits: strip of the left-padded repr of fp
      have hlenrepr :
          (reprDigits (d.value.natAbs % 1000000000000000000)).length ≤ 18 :=
        reprDigits_length_le _ 18 hfp_lt (by norm_num)
      set P := List.replicate
          (18 - (reprDigits (d.value.natAbs % 1000000000000000000)).length) 0
          ++ reprDigits (d.value.natAbs % 1000000000000000000) with hP
      have hlenP : P.length = 18 := by
        rw [hP, List.length_append, List.length_replicate]
        omega
      have hstollP : stoll P = d.value.natAbs % 1000000000000000000 := by
        rw [hP, stoll_replicate_zero_append, stoll_reprDigits]
      have hstrip_len : (stripTrailingZeros P).length ≤ 18 := by
        have := strip_length_le P
        omega
      have hrestore : stripTrailingZeros P
          ++ List.replicate (18 - (stripTrailingZeros P).length) 0 = P := by
        have := strip_restore P
        rwa [hlenP] at this
      simp only [if_pos hfppos]
      apply Decimal.ext
      rw [parseForm_value ⟨decide (d.value < 0),
            reprDigits (d.value.natAbs / 1000000000000000000),
            stripTrailingZeros P⟩ hstrip_len]
      simp only
      rw [hrestore, hstollP, stoll_reprDigits]
      rcases hb : decide (d.value < 0) with _ | _
      · have hpos := of_decide_eq_false hb
        simp only [Bool.false_eq_true, if_false, one_mul, SCALE_FACTOR]
        omega
      · have hneg := of_decide_eq_true hb
        simp only [if_true, neg_mul, one_mul, SCALE_FACTOR]
        omega
    · -- fractional part is zero: nothing after the decimal point
      simp only [if_neg hfppos]
      apply Decimal.ext
      rw [parseForm_value ⟨decide (d.value < 0),
            reprDigits (d.value.natAbs / 1000000000000000000), []⟩
            (by simp)]
      simp only [List.nil_append, List.length_nil, Nat.sub_zero]
      rw [stoll_replicate_zero, stoll_reprDigits]
      rcases hb : decide (d.value < 0) with _ | _
      · have hpos := of_decide_eq_false hb
        simp only [Bool.false_eq_true, if_false, one_mul, SCALE_FACTOR]
        omega
      · have hneg := of_decide_eq_true hb
        simp only [if_true, neg_mul, one_mul, SCALE_FACTOR]
        omega

/-- Rendering the parse of any well-formed decimal string (at most 18
fractional digits) yields its canonical form. -/
theorem to_form_parse (sgn : SignChar) (intDs fracDs : List Nat)
    (_h1 : ∀ d ∈ intDs, d < 10) (h2 : ∀ d ∈ fracDs, d < 10)
    (hlen : fracDs.length ≤ 18) :
    (Decimal.parse sgn intDs fracDs).to_form = canonicalForm sgn intDs fracDs := by
  set P := fracDs ++ List.replicate (18 - fracDs.length) 0 with hPdef
  have hPvalid : ∀ d ∈ P, d < 10 := by
    intro d hd
    rcases List.mem_append.mp hd with h | h
    · exact h2 d h
    · have := List.eq_of_mem_replicate h
      omega
  have hlenP : P.length = 18 := by
    rw [hPdef, List.length_append, List.length_replicate]
    omega
  have hfp_lt : stoll P < 1000000000000000000 := by
    have h := stoll_lt P hPvalid
    rw [hlenP] at h
    norm_num at h
    exact h
  have hfp_frac : stoll P = stoll fracDs * 10 ^ (18 - fracDs.length) :=
    stoll_append_replicate_zero _ _
  have hvalue : (Decimal.parse sgn intDs fracDs).value =
      if sgn = SignChar.minus
      then -(((stoll intDs * 1000000000000000000 + stoll P : Nat) : Int))
      else ((stoll intDs * 1000000000000000000 + stoll P : Nat) : Int) := by
    unfold Decimal.parse
    rw [List.take_of_length_le hlen]
    simp only [← hPdef, SCALE_FACTOR]
    split_ifs with h <;> push_cast <;> ring
  by_cases hzero : stoll intDs = 0 ∧ stoll P = 0
  · obtain ⟨hm0, hfp0⟩ := hzero
    have hv0 : (Decimal.parse sgn intDs fracDs).value = 0 := by
      rw [hvalue, hm0, hfp0]
      split_ifs <;> simp
    have hfracDs0 : stoll fracDs = 0 := by
      rw [hfp_frac] at hfp0
      have hp : 0 < 10 ^ (18 - fracDs.length) :=
        Nat.pos_pow_of_pos _ (by omega)
      rcases Nat.mul_eq_zero.mp hfp0 with h | h
      · exact h
      · omega
    have hfr : stripTrailingZeros fracDs = [] :=
      (strip_eq_nil_iff fracDs).mpr ((stoll_eq_zero_iff fracDs).mp hfracDs0)
    rw [Decimal.to_form, if_pos hv0, canonicalForm]
    simp [hm0, hfr]
  · have hne : stoll intDs ≠ 0 ∨ stoll P ≠ 0 := by tauto
    have hNpos : 0 < stoll intDs * 1000000000000000000 + stoll P := by
      rcases hne with h | h <;> positivity
    have hvne : (Decimal.parse sgn intDs fracDs).value ≠ 0 := by
      rw [hvalue]
      split_ifs <;> omega
    have hNA : (Decimal.parse sgn intDs fracDs).value.natAbs
        = stoll intDs * 1000000000000000000 + stoll P := by
      rw [hvalue]
      split_ifs <;> omega
    have hdiv : (Decimal.parse sgn intDs fracDs).value.natAbs
        / 1000000000000000000 = stoll intDs := by
      rw [hNA]
      omega
    have hmod : (Decimal.parse sgn intDs fracDs).value.natAbs
        % 1000000000000000000 = stoll P := by
      rw [hNA]
      omega
    have hcond : ¬(stoll intDs = 0 ∧ stripTrailingZeros fracDs = []) := by
      rintro ⟨ha, hb⟩
      have hall := (strip_eq_nil_iff fracDs).mp hb
      have : stoll fracDs = 0 := (stoll_eq_zero_iff _).mpr hall
      exact hzero ⟨ha, by rw [hfp_frac, this, Nat.zero_mul]⟩
    rw [Decimal.to_form, if_neg hvne, canonicalForm, if_neg hcond]
    refine DecForm.ext ?_ ?_ ?_
    · -- sign
      simp only
      by_cases hsgn : sgn = SignChar.minus
      · have hv : (Decimal.parse sgn intDs fracDs).value < 0 := by
          rw [hvalue, if_pos hsgn]
          omega
        rw [decide_eq_true hv, decide_eq_true hsgn]
      · have hv : ¬((Decimal.parse sgn intDs fracDs).value < 0) := by
          rw [hvalue, if_neg hsgn]
          omega
        rw [decide_eq_false hv, decide_eq_false hsgn]
    · -- integer digits
      simp only
      rw [hdiv]
    · -- fractional digits
      simp only
      rw [hmod]
      by_cases hfp0 : 0 < stoll P
      · rw [if_pos hfp0]
        have hlp := leftpad_reprDigits_stoll P hPvalid (by omega)
        rw [hlenP] at hlp
        rw [hlp, hPdef, strip_append_replicate_zero]
      · rw [if_neg hfp0]
        have hfracDs0 : stoll fracDs = 0 := by
          rw [hfp_frac] at hfp0
          have hp : 0 < 10 ^ (18 - fracDs.length) :=
            Nat.pos_pow_of_pos _ (by omega)
          by_contra hc
          exact hfp0 (Nat.mul_pos (Nat.pos_of_ne_zero hc) hp)
        exact ((strip_eq_nil_iff fracDs).mpr
          ((stoll_eq_zero_iff fracDs).mp hfracDs0)).symm

/-! ## Claim theorems -/

/-- Claim C2 (code bug): `export_state()` followed by `reset()` and
`import_state(snapshot)` does NOT restore anything: `import_state` is an
unimplemented stub that ignores the snapshot and returns `false`, so after
the round trip the positions, balances and P&L totals are still the reset
(empty/zero) values, although the pre-reset state was nonempty. -/
theorem c2_import_state_stub_breaks_roundtrip :
    (TradingCore.import_state (TradingCore.export_state c2State)
        (TradingCore.reset c2State)).1 = false
    ∧ (TradingCore.import_state (TradingCore.export_state c2State)
        (TradingCore.reset c2State)).2.positions = []
    ∧ (TradingCore.import_state (TradingCore.export_state c2State)
        (TradingCore.reset c2State)).2.balances = []
    ∧ (TradingCore.import_state (TradingCore.export_state c2State)
        (TradingCore.reset c2State)).2.total_pnl = Decimal.zero
    ∧ c2State.positions ≠ []
    ∧ c2State.total_pnl ≠ Decimal.zero := by
  refine ⟨rfl, rfl, rfl, rfl, ?_, ?_⟩ <;> decide

/-- Claim C4: with `max_order_size = 1.0` and order limits enabled,
submitting a valid 1.5-quantity limit order returns `false`, fires
`on_order_rejected` exactly once with an order carrying the same
`client_order_id`, and adds nothing to the active-orders map. -/
theorem c4_risk_reject_scenario :
    (TradingCore.submit_order c4State c4Order).1 = false
    ∧ (TradingCore.submit_order c4State c4Order).2.2
        = [TradingEvent.orderRejected c4Order]
    ∧ c4Order.client_order_id = "ORD-1"
    ∧ (TradingCore.submit_order c4State c4Order).2.1.active_orders = []
    ∧ TradingCore.validate_order c4Order = true := by
  refine ⟨rfl, ?_, rfl, rfl, ?_⟩ <;> decide

/-- Claim C5 (code bug): with loss limits enabled, `max_daily_loss` of
raw value 2 (2·10⁻¹⁸) and `daily_pnl = −1`, the daily P&L is strictly
below the negated loss limit, yet `check_risk_limits` passes: the unary
`Decimal::operator-` routes through the `int64_t` constructor and
multiplies the raw value by `10^18` a second time, so the comparison is
made against −2.0 instead of −2·10⁻¹⁸. -/
theorem c5_loss_limit_negation_bug :
    TradingCore.check_risk_limits c5State c5Order = true
    ∧ c5State.risk_limits.enable_loss_limits = true
    ∧ c5State.daily_pnl.value
        < -(c5State.risk_limits.max_daily_loss.value)
    ∧ (Decimal.neg c5State.risk_limits.max_daily_loss).value
        = -2000000000000000000 := by
  refine ⟨?_, rfl, ?_, ?_⟩ <;> decide

/-- Claim C10: after `clear()` both sides are empty, `last_update_id` is
0 and no registered callback is invoked; on a book whose update id was 5,
`clear()` strictly decreases `last_update_id` even though callbacks are
registered. -/
theorem c10_clear_resets_book :
    (∀ b : OrderBook, (OrderBook.clear b).1.bids = []
      ∧ (OrderBook.clear b).1.asks = []
      ∧ (OrderBook.clear b).1.last_update_id = 0
      ∧ (OrderBook.clear b).2 = 0)
    ∧ (OrderBook.clear c10Book).1.last_update_id < c10Book.last_update_id
    ∧ 0 < c10Book.num_callbacks := by
  refine ⟨fun b => ⟨rfl, rfl, rfl, rfl⟩, by decide, by decide⟩

/-- Claim C8 counterexample: a book built by two public updates whose
sides are both non-empty with `best_bid (= 5) ≥ best_ask (= 0)`, yet
`is_valid()` returns `true` — the code treats a zero best price as an
empty side, so the claim's emptiness reading is refuted. -/
theorem c8_is_valid_counterexample :
    c8Book.bids ≠ [] ∧ c8Book.asks ≠ []
    ∧ c8Book.best_ask.value ≤ c8Book.best_bid.value
    ∧ c8Book.is_valid = true := by
  refine ⟨?_, ?_, ?_, ?_⟩ <;> decide

/-- Claim C8 amended: `is_valid()` returns `false` exactly when both
best-price sentinels are nonzero and `best_bid ≥ best_ask`; a side whose
best price is zero (in particular an empty side) counts as absent, so any
book with `best_bid < best_ask` or an empty side is valid. -/
theorem c8_is_valid_amended :
    ∀ b : OrderBook, b.is_valid = false ↔
      (b.best_bid.value ≠ 0 ∧ b.best_ask.value ≠ 0
        ∧ b.best_ask.value ≤ b.best_bid.value) := by
  intro b
  unfold OrderBook.is_valid
  split_ifs with h
  · obtain ⟨h1, h2⟩ := h
    have h1v : b.best_bid.value ≠ 0 := by
      simpa [Decimal.is_zero] using h1
    have h2v : b.best_ask.value ≠ 0 := by
      simpa [Decimal.is_zero] using h2
    constructor
    · intro hd
      have := of_decide_eq_false hd
      exact ⟨h1v, h2v, by omega⟩
    · rintro ⟨-, -, h3⟩
      exact decide_eq_false (by omega)
  · constructor
    · intro hc
      exact absurd hc (by simp)
    · rintro ⟨h1, h2, h3⟩
      exfalso
      apply h
      constructor
      · simp [Decimal.is_zero, h1]
      · simp [Decimal.is_zero, h2]

/-- Claim C7 counterexample: a CANCELLED (terminal) order of quantity 2
with no fills receives `apply_fill(1, 50000)` and its status becomes
PARTIAL — a subsequent operation does change a terminal status. -/
theorem c7_terminal_status_counterexample :
    c7Order.status = OrderStatus.CANCELLED
    ∧ (c7Order.apply_fill (Decimal.ofInt 1) (Decimal.ofInt 50000)).status
        = OrderStatus.PARTIAL
    ∧ OrderStatus.PARTIAL ≠ OrderStatus.CANCELLED := by
  refine ⟨rfl, rfl, ?_⟩
  decide

/-- Claim C7 amended: status mutators never consult the current status —
`apply_fill` yields FILLED iff the new fill level reaches the quantity
and PARTIAL otherwise, `add_execution` and `set_filled_quantity`
recompute likewise, `cancel` always yields CANCELLED, and `set_status`
stores any value; so terminal states can be left.  The only terminal
stability is that a fully-filled FILLED order stays FILLED under further
nonnegative fills. -/
theorem c7_status_overwrite_amended :
    ∀ (o : LimitOrder) (q p f : Decimal) (st : OrderStatus)
      (eid : String) (fee : Decimal) (ccy : String),
    ((o.apply_fill q p).status =
        if o.quantity.value ≤ (o.filled_quantity.add q).value
        then OrderStatus.FILLED else OrderStatus.PARTIAL)
    ∧ (o.cancel.status = OrderStatus.CANCELLED)
    ∧ ((o.set_status st).status = st)
    ∧ ((o.set_filled_quantity f).status =
        if o.quantity.value ≤ f.value then OrderStatus.FILLED
        else if 0 < f.value then OrderStatus.PARTIAL else o.status)
    ∧ ((o.add_execution eid q p fee ccy).status =
        if o.quantity.value ≤ (o.filled_quantity.add q).value
        then OrderStatus.FILLED
        else if 0 < (o.filled_quantity.add q).value then OrderStatus.PARTIAL
        else o.status)
    ∧ (o.status = OrderStatus.FILLED →
        o.quantity.value ≤ o.filled_quantity.value → 0 ≤ q.value →
        (o.apply_fill q p).status = OrderStatus.FILLED) := by
  intro o q p f st eid fee ccy
  refine ⟨rfl, rfl, rfl, rfl, rfl, ?_⟩
  intro _ h2 h3
  show (if o.quantity.value ≤ (o.filled_quantity.add q).value
        then OrderStatus.FILLED else OrderStatus.PARTIAL) = OrderStatus.FILLED
  rw [if_pos]
  simp only [Decimal.add]
  omega

/-- Witness for C7's amended theorem at a concrete fully-filled order. -/
theorem c7_status_overwrite_amended_witness :
    (c7FilledOrder.apply_fill (Decimal.ofInt 1) Decimal.zero).status
      = OrderStatus.FILLED :=
  (c7_status_overwrite_amended c7FilledOrder (Decimal.ofInt 1) Decimal.zero
    Decimal.zero OrderStatus.OPEN "E-1" Decimal.zero
    "USDT").2.2.2.2.2 (by decide) (by decide) (by decide)

/-- Claim C3 counterexample: the id `"DUP"` is already stored, yet a
second valid order with the same id is accepted (`submit_order` returns
`true`) and silently overwrites the stored order. -/
theorem c3_duplicate_id_counterexample :
    mapFind "DUP" c3State.active_orders = some c3Order1
    ∧ (TradingCore.submit_order c3State c3Order2).1 = true
    ∧ mapFind "DUP"
        (TradingCore.submit_order c3State c3Order2).2.1.active_orders
      = some (c3Order2.set_status OrderStatus.OPEN)
    ∧ c3Order2.set_status OrderStatus.OPEN ≠ c3Order1 := by
  refine ⟨rfl, ?_, ?_, ?_⟩ <;> decide

/-- Claim C3 amended: `submit_order` returns `false` with no state change
exactly on the four validation failures (empty id, empty pair,
quantity ≤ 0, LIMIT with price ≤ 0); a duplicate `client_order_id` is NOT
rejected — any order passing validation and risk checks is accepted and
stored (overwriting an existing entry) with status OPEN. -/
theorem c3_submit_order_amended :
    ∀ (s : TradingCore) (o : LimitOrder),
    (TradingCore.validate_order o = false ↔
      (o.client_order_id = "" ∨ o.trading_pair = ""
        ∨ o.quantity.value ≤ 0
        ∨ (o.type = OrderType.LIMIT ∧ o.price.value ≤ 0)))
    ∧ (TradingCore.validate_order o = false →
        TradingCore.submit_order s o = (false, s, []))
    ∧ (TradingCore.validate_order o = true →
        TradingCore.check_risk_limits s o = true →
        (TradingCore.submit_order s o).1 = true
        ∧ mapFind o.client_order_id
            (TradingCore.submit_order s o).2.1.active_orders
          = some (o.set_status OrderStatus.OPEN)) := by
  intro s o
  refine ⟨?_, ?_, ?_⟩
  · unfold TradingCore.validate_order
    split_ifs with h1 h2 h3 h4
    · simp [h1]
    · simp [h2]
    · simp only [Decimal.is_zero, Decimal.is_negative, Bool.or_eq_true,
        decide_eq_true_eq, beq_iff_eq] at h3
      constructor
      · intro _
        right; right; left
        omega
      · intro _
        rfl
    · simp only [Bool.and_eq_true, Bool.or_eq_true, decide_eq_true_eq,
        beq_iff_eq, Decimal.is_zero, Decimal.is_negative] at h4
      constructor
      · intro _
        right; right; right
        exact ⟨h4.1, by rcases h4.2 with h | h <;> omega⟩
      · intro _
        rfl
    · simp only [Decimal.is_zero, Decimal.is_negative, Bool.or_eq_true,
        decide_eq_true_eq, beq_iff_eq] at h3
      push_neg at h3
      simp only [Bool.and_eq_true, Bool.or_eq_true, decide_eq_true_eq,
        beq_iff_eq, Decimal.is_zero, Decimal.is_negative] at h4
      constructor
      · intro hc
        exact absurd hc (by simp)
      · rintro (h | h | h | ⟨hl, hp⟩)
        · exact absurd h h1
        · exact absurd h h2
        · omega
        · exact absurd ⟨hl, by omega⟩ h4
  · intro h
    unfold TradingCore.submit_order
    rw [if_pos]
    simp [h]
  · intro hv hr
    unfold TradingCore.submit_order
    rw [if_neg (by simp [hv]), if_neg (by simp [hr])]
    exact ⟨rfl, mapFind_mapSet _ _ _⟩

/-- Witness for C3's amended theorem: the duplicate-id order is accepted
and stored with status OPEN. -/
theorem c3_submit_order_amended_witness :
    (TradingCore.submit_order c3State c3Order2).1 = true
    ∧ mapFind "DUP"
        (TradingCore.submit_order c3State c3Order2).2.1.active_orders
      = some (c3Order2.set_status OrderStatus.OPEN) :=
  (c3_submit_order_amended c3State c3Order2).2.2 (by decide) (by decide)

/-- The behaviour of `get_impact_price` on the side selected by
`is_buy`, for positive quantity and nonnegative resting amounts. -/
theorem impact_price_spec (b : OrderBook) (is_buy : Bool) (q : Decimal)
    (L : List OrderBookEntry)
    (hL : (if is_buy then b.asks else b.bids) = L)
    (hq : 0 < q.value) (h : ∀ e ∈ L, 0 ≤ e.amount.value) :
    ((sumAmounts L).value < q.value →
        b.get_impact_price is_buy q = Decimal.zero)
    ∧ (q.value ≤ (sumAmounts L).value →
        b.get_impact_price is_buy q = (vwapCost L q).div q) := by
  have hq0 : ¬(q.is_zero = true) := by
    simp only [Decimal.is_zero, beq_iff_eq]
    omega
  unfold OrderBook.get_impact_price
  rw [hL, if_neg hq0]
  have hrem := impactWalk_remaining L q Decimal.zero (by omega) h
  have hcost := impactWalk_cost L q Decimal.zero (by omega) h
  constructor
  · intro hins
    rw [if_pos]
    rw [hrem]
    simp only [Decimal.zero]
    omega
  · intro hsuf
    have hr0 : ¬(Decimal.zero.value
        < ((OrderBook.impactWalk L q Decimal.zero).2).value) := by
      rw [hrem]
      simp only [Decimal.zero]
      omega
    rw [if_neg hr0, hcost]
    have hz : Decimal.zero.add (vwapCost L q) = vwapCost L q := by
      apply Decimal.ext
      simp [Decimal.add, Decimal.zero]
    rw [hz]

/-- Claim C6: for positive quantity against well-formed resting amounts,
`get_impact_price` returns zero when the opposite side's total liquidity
is insufficient, and otherwise the volume-weighted average price of the
min-consuming walk divided by the quantity; on the two-level example
book, a buy of 1.5 yields exactly 50010 and a buy of 3.0 yields zero. -/
theorem c6_impact_price_vwap :
    (∀ (b : OrderBook) (q : Decimal), 0 < q.value →
      (∀ e ∈ b.asks, 0 ≤ e.amount.value) →
      (((sumAmounts b.asks).value < q.value →
          b.get_impact_price true q = Decimal.zero)
        ∧ (q.value ≤ (sumAmounts b.asks).value →
          b.get_impact_price true q = (vwapCost b.asks q).div q)))
    ∧ (∀ (b : OrderBook) (q : Decimal), 0 < q.value →
      (∀ e ∈ b.bids, 0 ≤ e.amount.value) →
      (((sumAmounts b.bids).value < q.value →
          b.get_impact_price false q = Decimal.zero)
        ∧ (q.value ≤ (sumAmounts b.bids).value →
          b.get_impact_price false q = (vwapCost b.bids q).div q)))
    ∧ exBook.get_impact_price true ⟨1500000000000000000⟩
        = Decimal.ofInt 50010
    ∧ exBook.get_impact_price true (Decimal.ofInt 3) = Decimal.zero := by
  refine ⟨fun b q hq h => impact_price_spec b true q b.asks rfl hq h,
          fun b q hq h => impact_price_spec b false q b.bids rfl hq h,
          ?_, ?_⟩ <;> decide

/-- Witness for C6 at the example book with quantity 2.0 (liquidity
exactly sufficient). -/
theorem c6_impact_price_vwap_witness :
    exBook.get_impact_price true (Decimal.ofInt 2)
      = (vwapCost exBook.asks (Decimal.ofInt 2)).div (Decimal.ofInt 2) :=
  (c6_impact_price_vwap.1 exBook (Decimal.ofInt 2) (by decide)
    (by decide)).2 (by decide)

/-- Claim C1: `update_position` implements the claimed fill accounting —
a BUY against position `(Q, avg)` yields quantity `Q + q` and average
price `(Q·avg + q·p) / (Q + q)` (when the new quantity is nonzero, which
the code guards), leaving the P&L totals untouched; a SELL realizes
`q · (p − avg)` into the position's `realized_pnl` and into both
`total_pnl` and `daily_pnl`, and the quantity becomes `Q − q`. -/
theorem c1_update_position_fill_accounting (s : TradingCore) (t : Trade)
    (P : Position) (hP : s.get_position t.symbol = P) :
    (t.side = OrderSide.BUY →
      (P.quantity.add t.quantity).is_zero = false →
      mapFind t.symbol (s.update_position t).1.positions =
        some { symbol := t.symbol,
               quantity := P.quantity.add t.quantity,
               average_price := ((P.quantity.mul P.average_price).add
                   (t.quantity.mul t.price)).div (P.quantity.add t.quantity),
               unrealized_pnl := P.unrealized_pnl,
               realized_pnl := P.realized_pnl }
      ∧ (s.update_position t).1.total_pnl = s.total_pnl
      ∧ (s.update_position t).1.daily_pnl = s.daily_pnl)
    ∧ (t.side = OrderSide.SELL →
      mapFind t.symbol (s.update_position t).1.positions =
        some { symbol := t.symbol,
               quantity := P.quantity.sub t.quantity,
               average_price := P.average_price,
               unrealized_pnl := P.unrealized_pnl,
               realized_pnl := P.realized_pnl.add
                 (t.quantity.mul (t.price.sub P.average_price)) }
      ∧ (s.update_position t).1.total_pnl
          = s.total_pnl.add (t.quantity.mul (t.price.sub P.average_price))
      ∧ (s.update_position t).1.daily_pnl
          = s.daily_pnl.add (t.quantity.mul (t.price.sub P.average_price))) := by
  subst hP
  constructor
  · intro hside hnz
    simp only [TradingCore.update_position, hside]
    simp only [reduceIte, hnz, Bool.false_eq_true, if_false,
      mapFind_mapSet]
    refine ⟨?_, ?_, ?_⟩ <;> trivial
  · intro hside
    have hne : ¬(t.side = OrderSide.BUY) := by
      rw [hside]
      decide
    simp only [TradingCore.update_position, if_neg hne, mapFind_mapSet]
    refine ⟨?_, ?_, ?_⟩ <;> trivial

/-- Witness for C1: a BUY fill of 1 @ 50000 against the empty position
yields quantity 1 at average price 50000. -/
theorem c1_update_position_fill_accounting_witness :
    mapFind "BTC-USDT" (emptyCore.update_position c1BuyTrade).1.positions =
      some { symbol := "BTC-USDT",
             quantity := Position.empty.quantity.add c1BuyTrade.quantity,
             average_price :=
               ((Position.empty.quantity.mul Position.empty.average_price).add
                 (c1BuyTrade.quantity.mul c1BuyTrade.price)).div
                 (Position.empty.quantity.add c1BuyTrade.quantity),
             unrealized_pnl := Position.empty.unrealized_pnl,
             realized_pnl := Position.empty.realized_pnl }
    ∧ (emptyCore.update_position c1BuyTrade).1.total_pnl
        = emptyCore.total_pnl :=
  let h := (c1_update_position_fill_accounting emptyCore c1BuyTrade
    Position.empty (by decide)).1 (by decide) (by decide)
  ⟨h.1, h.2.1⟩

/-- Claim C9: decimal serialization round-trips — parsing the rendering
of any `Decimal` recovers it bit-exactly, and rendering the parse of any
well-formed decimal string with at most 18 fractional digits yields its
canonical form (no trailing zeros, no leading plus, `0` for zero). -/
theorem c9_decimal_string_roundtrip :
    (∀ d : Decimal, Decimal.parseForm d.to_form = d)
    ∧ (∀ (sgn : SignChar) (intDs fracDs : List Nat),
        (∀ d ∈ intDs, d < 10) → (∀ d ∈ fracDs, d < 10) →
        fracDs.length ≤ 18 →
        (Decimal.parse sgn intDs fracDs).to_form
          = canonicalForm sgn intDs fracDs) :=
  ⟨parseForm_to_form, to_form_parse⟩

/-- Witness for C9 at the string `+07.050`: parse and re-render gives the
canonical `7.05`. -/
theorem c9_decimal_string_roundtrip_witness :
    (Decimal.parse SignChar.plus [0, 7] [0, 5, 0]).to_form
      = canonicalForm SignChar.plus [0, 7] [0, 5, 0] :=
  c9_decimal_string_roundtrip.2 SignChar.plus [0, 7] [0, 5, 0]
    (by decide) (by decide) (by decide)

end FastTrade
